import Mathlib

/-!
Shallow embedding of the vortex-dynamics engine in `pysces/panel.py`:
the regularized point-vortex kernel (`LumpedVortex.induced_velocity_single`),
the unsteady bound-panel solve (`BoundVortexPanels.update_strengths_unsteady`,
`get_newly_shed`, the trailing-edge descriptor of `_update`), and the free
vortex particle wake (`FreeVortexParticles`).  The Python code computes with
floating point; the embedding uses `ℝ`.  Fallible operations (Python code
that raises) return `Except String`.
-/

namespace Pysces

/-- 2D vectors, stored as pairs (the code uses columns of 2×n arrays). -/
abbrev Vec2 : Type := ℝ × ℝ

/-- `LumpedVortex.induced_velocity_single` at a single target point `x`
(the numpy version maps this over the columns of `x`):
`r = x - xvort`, `rsq = max(|r|^2, core_radius^2)`,
`vel = gam/(2π) * (r_y, -r_x) / rsq`.  `r0` is `self.core_radius`. -/
noncomputable def inducedVelocitySingle (r0 : ℝ) (x xvort : Vec2) (gam : ℝ) : Vec2 :=
  let rx : ℝ := x.1 - xvort.1
  let ry : ℝ := x.2 - xvort.2
  let rsq : ℝ := max (rx ^ 2 + ry ^ 2) (r0 ^ 2)
  (gam / (2 * Real.pi) * ry / rsq, gam / (2 * Real.pi) * (-rx) / rsq)

/-- Euclidean norm of a 2D vector (`np.linalg.norm` on a length-2 vector). -/
noncomputable def vnorm (v : Vec2) : ℝ := Real.sqrt (v.1 ^ 2 + v.2 ^ 2)

/-- A vector divided by its Euclidean norm (used by the spec-level statement of
the trailing-edge claim). -/
noncomputable def normalize (v : Vec2) : Vec2 := (v.1 / vnorm v, v.2 / vnorm v)

/-- `np.diff(q)` along the point axis: successive differences of the body
boundary points, one per panel. -/
def panelDiff (q : List Vec2) : List Vec2 :=
  List.zipWith (fun a b => (b.1 - a.1, b.2 - a.2)) q q.tail

/-- Trailing-edge point and wake-shedding direction, from lines 91-100 of
`BoundVortexPanels._update`: with `q` the body-frame boundary points and
`dq = np.diff(q)`, if `‖q[:,0] - q[:,-1]‖ < 0.005` the body is closed and
`te = 0.5*(q[:,0]+q[:,-1])`, `wake_dir = normalize(-0.5*(dq[:,0]-dq[:,-1]))`;
otherwise `te = q[:,0]`, `wake_dir = -dq[:,0]/‖dq[:,0]‖`.  Fewer than two
boundary points would make the numpy indexing fail, modelled as `none`. -/
noncomputable def trailingEdgeDescriptor (q : List Vec2) : Option (Vec2 × Vec2) :=
  if 2 ≤ q.length then
    let q0 : Vec2 := q.headI
    let qn : Vec2 := q.getLastD (0, 0)
    let dq := panelDiff q
    let dq0 : Vec2 := dq.headI
    let dqn : Vec2 := dq.getLastD (0, 0)
    if vnorm (q0.1 - qn.1, q0.2 - qn.2) < 0.005 then
      some ((0.5 * (q0.1 + qn.1), 0.5 * (q0.2 + qn.2)),
            normalize (-0.5 * (dq0.1 - dqn.1), -0.5 * (dq0.2 - dqn.2)))
    else
      some (q0, (-dq0.1 / vnorm dq0, -dq0.2 / vnorm dq0))
  else none

/-! ## The free vortex particle wake (`FreeVortexParticles`)

`_x_vortices` is the numpy position array, which is `None` after `reset` and
becomes a growing 2×n array on the first `add_vortex`; modelled as
`Option (List Vec2)`.  Iterating over `np.transpose(None)` (a 0-d array)
raises `TypeError: iteration over a 0-d array`, modelled by `Except.error`. -/

/-- State of a `FreeVortexParticles` object. -/
structure Wake where
  x_vortices : Option (List Vec2)
  gamma : List ℝ
  num_vortices : ℕ
  circulation : ℝ

/-- `FreeVortexParticles.reset` (also run by the constructor). -/
def Wake.reset (_w : Wake) : Wake :=
  { x_vortices := none, gamma := [], num_vortices := 0, circulation := 0 }

/-- `FreeVortexParticles.add_vortex(x, gamma)`. -/
def Wake.add_vortex (w : Wake) (x : Vec2) (gam : ℝ) : Wake :=
  { x_vortices :=
      match w.x_vortices with
      | none => some [x]
      | some xs => some (xs ++ [x])
    gamma := w.gamma ++ [gam]
    num_vortices := w.num_vortices + 1
    circulation := w.circulation + gam }

/-- The inner accumulation loop of `FreeVortexParticles.induced_velocity` at
one target point: starting from zero, add the kernel contribution of each
particle (`zip` pairs positions with strengths). -/
noncomputable def pointInduced (r0 : ℝ) (xs : List Vec2) (gs : List ℝ) (p : Vec2) : Vec2 :=
  ((xs.zip gs).map fun q => inducedVelocitySingle r0 p q.1 q.2).sum

/-- `FreeVortexParticles.induced_velocity(x)`.  When `_x_vortices` is `None`
(fresh or reset wake), `zip(np.transpose(None), ...)` raises
`TypeError: iteration over a 0-d array`. -/
noncomputable def Wake.induced_velocity (r0 : ℝ) (w : Wake) (x : List Vec2) :
    Except String (List Vec2) :=
  match w.x_vortices with
  | none => Except.error "iteration over a 0-d array"
  | some xs => Except.ok (x.map (pointInduced r0 xs w.gamma))

/-- The velocity field assembled by `FreeVortexParticles.advect` from the
pre-step configuration: self-induced velocity at the particle positions, plus
the optional body contribution, plus `Uinfty` when it is supplied and nonzero
(`if Uinfty.any()`). -/
noncomputable def advectVelocity (r0 : ℝ) (xs : List Vec2) (gs : List ℝ)
    (Uinfty : Option Vec2) (body : Option (List Vec2 → List Vec2)) : List Vec2 :=
  let vel := xs.map (pointInduced r0 xs gs)
  let vel :=
    match body with
    | some b => List.zipWith (fun v u => (v.1 + u.1, v.2 + u.2)) vel (b xs)
    | none => vel
  match Uinfty with
  | some u => if u = ((0 : ℝ), (0 : ℝ)) then vel else vel.map fun v => (v.1 + u.1, v.2 + u.2)
  | none => vel

/-- `FreeVortexParticles.advect(dt, Uinfty, body)`: explicit Euler update
`x += vel * dt` where `vel` is `self.induced_velocity(self._x_vortices)` plus
the optional body and free-stream terms.  On an empty wake
(`_x_vortices is None`) `induced_velocity` raises, so `advect` raises. -/
noncomputable def Wake.advect (r0 dt : ℝ) (w : Wake) (Uinfty : Option Vec2)
    (body : Option (List Vec2 → List Vec2)) : Except String Wake :=
  match w.x_vortices with
  | none => Except.error "iteration over a 0-d array"
  | some xs =>
      let vel := advectVelocity r0 xs w.gamma Uinfty body
      Except.ok { w with
        x_vortices := some (List.zipWith (fun p v => (p.1 + v.1 * dt, p.2 + v.2 * dt)) xs vel) }

/-! ## The unsteady bound-panel solve (`BoundVortexPanels`) -/

/-- The augmented `(N+1)×(N+1)` system matrix of
`update_strengths_unsteady`: the first `n` rows are the influence matrix with
the newly shed vortex's normal influence as an extra column; the last row is
all ones (the circulation-conservation equation). -/
def augmentedMatrix (n : ℕ) (influence : Matrix (Fin n) (Fin n) ℝ)
    (shedNormal : Fin n → ℝ) : Matrix (Fin (n + 1)) (Fin (n + 1)) ℝ :=
  Matrix.of fun i j =>
    if hi : (i : ℕ) < n then
      if hj : (j : ℕ) < n then influence ⟨i, hi⟩ ⟨j, hj⟩ else shedNormal ⟨i, hi⟩
    else 1

/-- The augmented right-hand side `np.hstack([rhs0, circ])` of
`update_strengths_unsteady`. -/
def augmentedRhs (n : ℕ) (rhs0 : Fin n → ℝ) (circ : ℝ) : Fin (n + 1) → ℝ :=
  fun i => if hi : (i : ℕ) < n then rhs0 ⟨i, hi⟩ else circ

/-- The total circulation used by `update_strengths_unsteady` (lines
191-195): the supplied `circ` if given, else `0` with no wake, else
`-wake.circulation`. -/
def totalCirculationDefault (circ : Option ℝ) (wake : Option Wake) : ℝ :=
  match circ with
  | some c => c
  | none =>
      match wake with
      | none => 0
      | some w => -w.circulation

/-- The part of a `BoundVortexPanels` object's state the shedding claims
touch: the panel strengths `_gam` and the newly shed vortex
(`_x_shed`, `_gam_shed`), attributes that do not exist before the first
unsteady solve (modelled as `none`). -/
structure PanelState (n : ℕ) where
  gam : Fin n → ℝ
  shed : Option (Vec2 × ℝ)

/-- State after `_update` / construction: `_gam = np.zeros(numpanels)` and no
`_x_shed` / `_gam_shed` attributes. -/
def initPanelState (n : ℕ) : PanelState n :=
  { gam := fun _ => 0, shed := none }

/-- The state updates at the end of `update_strengths_unsteady`, given the
solution `g` of the augmented system: `_gam = gam[:-1]`, `_x_shed = x_shed`,
`_gam_shed = gam[-1]`. -/
def solveUnsteady (n : ℕ) (st : PanelState n) (g : Fin (n + 1) → ℝ) (xShed : Vec2) :
    PanelState n :=
  { st with gam := fun i => g i.castSucc, shed := some (xShed, g (Fin.last n)) }

/-- `BoundVortexPanels.get_newly_shed`: before any unsteady solve the
attribute access `self._x_shed` raises `AttributeError`; afterwards the shed
position is mapped by `motion.map_position` when the body has a motion, else
returned as an (independent copy of the) body-frame position. -/
def getNewlyShed (n : ℕ) (st : PanelState n) (motion : Option (Vec2 → Vec2)) :
    Except String (Vec2 × ℝ) :=
  match st.shed with
  | none => Except.error "AttributeError: _x_shed"
  | some (x, g) =>
      match motion with
      | some m => Except.ok (m x, g)
      | none => Except.ok (x, g)

/-! ## Theorems -/

/-- The running circulation after folding `add_vortex` over a list of
(position, strength) pairs: it grows by the sum of the strengths. -/
theorem foldl_add_vortex_circulation (l : List (Vec2 × ℝ)) (w : Wake) :
    (l.foldl (fun s p => s.add_vortex p.1 p.2) w).circulation
      = w.circulation + (l.map Prod.snd).sum := by
  induction l generalizing w with
  | nil => simp
  | cons a t ih =>
      rw [List.foldl_cons, ih]
      simp only [Wake.add_vortex, List.map_cons, List.sum_cons]
      ring

/-- Claim C4: after any sequence of `add_vortex` calls following `reset`, the
wake's `circulation` equals the sum of the strengths added, independently of
the order of the calls, and `reset` restores circulation 0 and particle
count 0. -/
theorem wake_circulation_sum (l l' : List (Vec2 × ℝ)) (h : l.Perm l') (w : Wake) :
    (l.foldl (fun s p => s.add_vortex p.1 p.2) w.reset).circulation = (l.map Prod.snd).sum
    ∧ (l'.foldl (fun s p => s.add_vortex p.1 p.2) w.reset).circulation = (l.map Prod.snd).sum
    ∧ w.reset.circulation = 0 ∧ w.reset.num_vortices = 0 := by
  refine ⟨?_, ?_, rfl, rfl⟩
  · rw [foldl_add_vortex_circulation]
    simp [Wake.reset]
  · rw [foldl_add_vortex_circulation]
    simp only [Wake.reset, zero_add]
    exact ((h.map Prod.snd).sum_eq).symm

/-- Witness for C4: adding strengths 1 and 2 (in either order) to a reset
wake that previously held a particle of strength 3 yields circulation 3. -/
theorem wake_circulation_sum_w :
    (([((((0:ℝ), (0:ℝ)), (1:ℝ))), ((((1:ℝ), (0:ℝ)), (2:ℝ)))].foldl
        (fun s p => s.add_vortex p.1 p.2)
        (Wake.reset ⟨some [((5:ℝ), (5:ℝ))], [3], 1, 3⟩)).circulation = 3) := by
  have h := wake_circulation_sum
      [((((0:ℝ), (0:ℝ)), (1:ℝ))), ((((1:ℝ), (0:ℝ)), (2:ℝ)))]
      [((((1:ℝ), (0:ℝ)), (2:ℝ))), ((((0:ℝ), (0:ℝ)), (1:ℝ)))]
      (List.Perm.swap _ _ _) ⟨some [((5:ℝ), (5:ℝ))], [3], 1, 3⟩
  rw [h.1]
  norm_num

/-- Claim C3: when `circ` is not supplied, the total circulation used on the
right-hand side of the conservation equation (the last row of the augmented
system) is 0 without a wake, and `-wake.circulation` with one. -/
theorem default_total_circulation (n : ℕ) (rhs0 : Fin n → ℝ) (w : Wake) :
    augmentedRhs n rhs0 (totalCirculationDefault none none) (Fin.last n) = 0
    ∧ augmentedRhs n rhs0 (totalCirculationDefault none (some w)) (Fin.last n)
        = -w.circulation
    ∧ ∀ c : ℝ, totalCirculationDefault (some c) (some w) = c := by
  refine ⟨?_, ?_, fun _ => rfl⟩ <;>
    simp [augmentedRhs, totalCirculationDefault, Fin.val_last]

/-- Claim C8: `get_newly_shed` before any unsteady solve fails fast (the
attribute access raises), never returning a default; after a solve it
returns the recorded shed position — mapped by the body's motion when
present, else the body-frame position — with the shed strength. -/
theorem get_newly_shed_cases (n : ℕ) (st : PanelState n) (g : Fin (n + 1) → ℝ)
    (xShed : Vec2) (m : Vec2 → Vec2) :
    getNewlyShed n (initPanelState n) (some m) = Except.error "AttributeError: _x_shed"
    ∧ getNewlyShed n (initPanelState n) none = Except.error "AttributeError: _x_shed"
    ∧ getNewlyShed n (solveUnsteady n st g xShed) (some m)
        = Except.ok (m xShed, g (Fin.last n))
    ∧ getNewlyShed n (solveUnsteady n st g xShed) none
        = Except.ok (xShed, g (Fin.last n)) :=
  ⟨rfl, rfl, rfl, rfl⟩

/-- Counterexample to C6 as stated: on a wake reset after five `add_vortex`
calls, `induced_velocity` does not return zero vectors — the particle array
is `None` again and iterating it raises. -/
theorem reset_induced_velocity_cex :
    Wake.induced_velocity (1/1000)
        (Wake.reset ((((((Wake.reset ⟨none, [], 0, 0⟩).add_vortex ((0:ℝ), 0) 1).add_vortex
            ((1:ℝ), 0) 1).add_vortex ((2:ℝ), 0) 1).add_vortex
            ((3:ℝ), 0) 1).add_vortex ((4:ℝ), 0) 1))
        [((0:ℝ), (0:ℝ))]
      ≠ Except.ok [((0:ℝ), (0:ℝ))] := by
  intro h
  exact Except.noConfusion h

/-- C6 as amended: `reset` zeroes `circulation` and the particle count, but a
subsequent `induced_velocity` call raises (the particle array is `None`)
instead of returning zero vectors. -/
theorem reset_then_induced_velocity (r0 : ℝ) (w : Wake) :
    w.reset.circulation = 0 ∧ w.reset.num_vortices = 0
    ∧ ∀ pts : List Vec2,
        Wake.induced_velocity r0 w.reset pts = Except.error "iteration over a 0-d array" :=
  ⟨rfl, rfl, fun _ => rfl⟩

/-- Counterexample to C7 as stated: `advect` on an empty particle set is not
a no-op — it raises (`zip` over the `None` position array). -/
theorem advect_empty_cex :
    Wake.advect (1/1000) (1/10) (Wake.reset ⟨none, [], 0, 0⟩) (some ((1:ℝ), (0:ℝ))) none
      = Except.error "iteration over a 0-d array" := rfl

/-- C7 as amended: on a wake whose particle array exists, `advect` and
`induced_velocity` complete without error, while on an empty (reset) wake
both raise; `reset`, `add_vortex` and `circulation` are total. -/
theorem wake_ops_error_semantics (r0 dt : ℝ) (w : Wake) (xs : List Vec2)
    (hx : w.x_vortices = some xs) (U : Option Vec2)
    (b : Option (List Vec2 → List Vec2)) :
    (∃ w', Wake.advect r0 dt w U b = Except.ok w')
    ∧ (∃ vel, Wake.induced_velocity r0 w xs = Except.ok vel)
    ∧ Wake.advect r0 dt w.reset U b = Except.error "iteration over a 0-d array"
    ∧ (∀ pts : List Vec2,
        Wake.induced_velocity r0 w.reset pts = Except.error "iteration over a 0-d array") := by
  obtain ⟨xv, gs, nv, c⟩ := w
  have hx' : xv = some xs := hx
  subst hx'
  exact ⟨⟨_, rfl⟩, ⟨_, rfl⟩, rfl, fun _ => rfl⟩

/-- Witness for the amended C7, on a one-particle wake. -/
theorem wake_ops_error_semantics_w :
    (∃ w', Wake.advect 1 1 (⟨some [((0:ℝ), (0:ℝ))], [1], 1, 1⟩ : Wake) none none
        = Except.ok w')
    ∧ (∃ vel, Wake.induced_velocity 1 (⟨some [((0:ℝ), (0:ℝ))], [1], 1, 1⟩ : Wake)
        [((0:ℝ), (0:ℝ))] = Except.ok vel)
    ∧ Wake.advect 1 1 (Wake.reset (⟨some [((0:ℝ), (0:ℝ))], [1], 1, 1⟩ : Wake)) none none
        = Except.error "iteration over a 0-d array"
    ∧ (∀ pts : List Vec2,
        Wake.induced_velocity 1 (Wake.reset (⟨some [((0:ℝ), (0:ℝ))], [1], 1, 1⟩ : Wake)) pts
          = Except.error "iteration over a 0-d array") :=
  wake_ops_error_semantics 1 1 ⟨some [((0:ℝ), (0:ℝ))], [1], 1, 1⟩ [((0:ℝ), (0:ℝ))] rfl
    none none

/-- Claim C10: `advect` on a non-empty wake only moves the particles — each
position is incremented by `dt` times its velocity in the field assembled
from the pre-step configuration — while the strength list, the particle
count and the total circulation are unchanged. -/
theorem advect_frame (r0 dt : ℝ) (w : Wake) (xs : List Vec2)
    (hx : w.x_vortices = some xs) (U : Option Vec2)
    (b : Option (List Vec2 → List Vec2)) :
    ∃ w', Wake.advect r0 dt w U b = Except.ok w'
      ∧ w'.gamma = w.gamma
      ∧ w'.num_vortices = w.num_vortices
      ∧ w'.circulation = w.circulation
      ∧ w'.x_vortices
          = some (List.zipWith (fun p v => (p.1 + v.1 * dt, p.2 + v.2 * dt)) xs
              (advectVelocity r0 xs w.gamma U b)) := by
  obtain ⟨xv, gs, nv, c⟩ := w
  have hx' : xv = some xs := hx
  subst hx'
  exact ⟨_, rfl, rfl, rfl, rfl, rfl⟩

/-- Witness for C10, on a one-particle wake. -/
theorem advect_frame_w :
    ∃ w', Wake.advect 1 1 (⟨some [((0:ℝ), (0:ℝ))], [2], 1, 2⟩ : Wake) none none
        = Except.ok w'
      ∧ w'.gamma = (⟨some [((0:ℝ), (0:ℝ))], [2], 1, 2⟩ : Wake).gamma
      ∧ w'.num_vortices = (⟨some [((0:ℝ), (0:ℝ))], [2], 1, 2⟩ : Wake).num_vortices
      ∧ w'.circulation = (⟨some [((0:ℝ), (0:ℝ))], [2], 1, 2⟩ : Wake).circulation
      ∧ w'.x_vortices
          = some (List.zipWith (fun p v => (p.1 + v.1 * 1, p.2 + v.2 * 1))
              [((0:ℝ), (0:ℝ))]
              (advectVelocity 1 [((0:ℝ), (0:ℝ))]
                (⟨some [((0:ℝ), (0:ℝ))], [2], 1, 2⟩ : Wake).gamma none none)) :=
  advect_frame 1 1 ⟨some [((0:ℝ), (0:ℝ))], [2], 1, 2⟩ [((0:ℝ), (0:ℝ))] rfl none none

/-- Claim C1: the kernel returns `(Γ/2π)·(r_y, −r_x)/max(|r|², r0²)`; at a
distance greater than the core radius the speed is `|Γ|/(2πr)`, and at the
vortex position the velocity is exactly `(0, 0)`. -/
theorem kernel_single_vortex (r0 : ℝ) (hr0 : 0 < r0) (x xv : Vec2) (gam : ℝ) :
    inducedVelocitySingle r0 x xv gam
      = (gam / (2 * Real.pi) * (x.2 - xv.2)
            / max ((x.1 - xv.1) ^ 2 + (x.2 - xv.2) ^ 2) (r0 ^ 2),
         gam / (2 * Real.pi) * (-(x.1 - xv.1))
            / max ((x.1 - xv.1) ^ 2 + (x.2 - xv.2) ^ 2) (r0 ^ 2))
    ∧ (r0 < vnorm (x.1 - xv.1, x.2 - xv.2) →
        vnorm (inducedVelocitySingle r0 x xv gam)
          = |gam| / (2 * Real.pi * vnorm (x.1 - xv.1, x.2 - xv.2)))
    ∧ (x = xv → inducedVelocitySingle r0 x xv gam = (0, 0)) := by
  refine ⟨rfl, ?_, ?_⟩
  · intro hfar
    have hs0 : (0:ℝ) ≤ (x.1 - xv.1) ^ 2 + (x.2 - xv.2) ^ 2 := by positivity
    have hr2 : r0 ^ 2 < (x.1 - xv.1) ^ 2 + (x.2 - xv.2) ^ 2 :=
      (Real.lt_sqrt hr0.le).mp hfar
    have hspos : (0:ℝ) < (x.1 - xv.1) ^ 2 + (x.2 - xv.2) ^ 2 :=
      lt_trans (pow_pos hr0 2) hr2
    have hmax : max ((x.1 - xv.1) ^ 2 + (x.2 - xv.2) ^ 2) (r0 ^ 2)
        = (x.1 - xv.1) ^ 2 + (x.2 - xv.2) ^ 2 := max_eq_left hr2.le
    show Real.sqrt
        ((gam / (2 * Real.pi) * (x.2 - xv.2)
            / max ((x.1 - xv.1) ^ 2 + (x.2 - xv.2) ^ 2) (r0 ^ 2)) ^ 2
          + (gam / (2 * Real.pi) * (-(x.1 - xv.1))
            / max ((x.1 - xv.1) ^ 2 + (x.2 - xv.2) ^ 2) (r0 ^ 2)) ^ 2)
        = |gam| / (2 * Real.pi * Real.sqrt ((x.1 - xv.1) ^ 2 + (x.2 - xv.2) ^ 2))
    rw [hmax]
    have hexp : (gam / (2 * Real.pi) * (x.2 - xv.2)
            / ((x.1 - xv.1) ^ 2 + (x.2 - xv.2) ^ 2)) ^ 2
          + (gam / (2 * Real.pi) * (-(x.1 - xv.1))
            / ((x.1 - xv.1) ^ 2 + (x.2 - xv.2) ^ 2)) ^ 2
        = (gam / (2 * Real.pi)) ^ 2 / ((x.1 - xv.1) ^ 2 + (x.2 - xv.2) ^ 2) := by
      field_simp
      ring
    rw [hexp, Real.sqrt_div (sq_nonneg _), Real.sqrt_sq_eq_abs, abs_div,
      abs_of_pos Real.two_pi_pos, div_div]
  · intro hxy
    subst hxy
    show ((gam / (2 * Real.pi) * (x.2 - x.2)
            / max ((x.1 - x.1) ^ 2 + (x.2 - x.2) ^ 2) (r0 ^ 2),
           gam / (2 * Real.pi) * (-(x.1 - x.1))
            / max ((x.1 - x.1) ^ 2 + (x.2 - x.2) ^ 2) (r0 ^ 2)) : Vec2) = (0, 0)
    simp

/-- Witness for C1: a vortex of strength 3 at the origin, sampled at `(2, 0)`
with core radius 1. -/
theorem kernel_single_vortex_w :
    vnorm (inducedVelocitySingle 1 ((2:ℝ), (0:ℝ)) ((0:ℝ), (0:ℝ)) 3)
      = |(3:ℝ)| / (2 * Real.pi * vnorm (((2:ℝ)) - 0, ((0:ℝ)) - 0)) := by
  have h := (kernel_single_vortex 1 one_pos ((2:ℝ), (0:ℝ)) ((0:ℝ), (0:ℝ)) 3).2.1
  apply h
  have : vnorm (((2:ℝ)) - 0, ((0:ℝ)) - 0) = 2 := by
    show Real.sqrt (((2:ℝ) - 0) ^ 2 + ((0:ℝ) - 0) ^ 2) = 2
    rw [show ((2:ℝ) - 0) ^ 2 + ((0:ℝ) - 0) ^ 2 = 2 ^ 2 by norm_num, Real.sqrt_sq]
    norm_num
  rw [this]
  norm_num

/-- Claim C9: with a positive core radius the clamp keeps the denominator
positive (no division by zero), and the returned speed is bounded by
`|Γ|/(2π r0)` — the kernel always returns a finite velocity. -/
theorem kernel_regularized_bound (r0 : ℝ) (hr0 : 0 < r0) (x xv : Vec2) (gam : ℝ) :
    0 < max ((x.1 - xv.1) ^ 2 + (x.2 - xv.2) ^ 2) (r0 ^ 2)
    ∧ vnorm (inducedVelocitySingle r0 x xv gam) ≤ |gam| / (2 * Real.pi * r0) := by
  have hr2 : (0:ℝ) < r0 ^ 2 := pow_pos hr0 2
  have hmpos : 0 < max ((x.1 - xv.1) ^ 2 + (x.2 - xv.2) ^ 2) (r0 ^ 2) :=
    lt_of_lt_of_le hr2 (le_max_right _ _)
  refine ⟨hmpos, ?_⟩
  have hsm : (x.1 - xv.1) ^ 2 + (x.2 - xv.2) ^ 2
      ≤ max ((x.1 - xv.1) ^ 2 + (x.2 - xv.2) ^ 2) (r0 ^ 2) := le_max_left _ _
  have hr2m : r0 ^ 2 ≤ max ((x.1 - xv.1) ^ 2 + (x.2 - xv.2) ^ 2) (r0 ^ 2) :=
    le_max_right _ _
  have hexp : (gam / (2 * Real.pi) * (x.2 - xv.2)
          / max ((x.1 - xv.1) ^ 2 + (x.2 - xv.2) ^ 2) (r0 ^ 2)) ^ 2
        + (gam / (2 * Real.pi) * (-(x.1 - xv.1))
          / max ((x.1 - xv.1) ^ 2 + (x.2 - xv.2) ^ 2) (r0 ^ 2)) ^ 2
      = (gam / (2 * Real.pi)) ^ 2 * ((x.1 - xv.1) ^ 2 + (x.2 - xv.2) ^ 2)
          / (max ((x.1 - xv.1) ^ 2 + (x.2 - xv.2) ^ 2) (r0 ^ 2)) ^ 2 := by
    field_simp
    ring
  have hchain : (gam / (2 * Real.pi)) ^ 2 * ((x.1 - xv.1) ^ 2 + (x.2 - xv.2) ^ 2)
        / (max ((x.1 - xv.1) ^ 2 + (x.2 - xv.2) ^ 2) (r0 ^ 2)) ^ 2
      ≤ (gam / (2 * Real.pi)) ^ 2 / r0 ^ 2 := by
    have h1 : (gam / (2 * Real.pi)) ^ 2 * ((x.1 - xv.1) ^ 2 + (x.2 - xv.2) ^ 2)
          / (max ((x.1 - xv.1) ^ 2 + (x.2 - xv.2) ^ 2) (r0 ^ 2)) ^ 2
        ≤ (gam / (2 * Real.pi)) ^ 2 * max ((x.1 - xv.1) ^ 2 + (x.2 - xv.2) ^ 2) (r0 ^ 2)
          / (max ((x.1 - xv.1) ^ 2 + (x.2 - xv.2) ^ 2) (r0 ^ 2)) ^ 2 := by
      gcongr
    have h2 : (gam / (2 * Real.pi)) ^ 2 * max ((x.1 - xv.1) ^ 2 + (x.2 - xv.2) ^ 2) (r0 ^ 2)
          / (max ((x.1 - xv.1) ^ 2 + (x.2 - xv.2) ^ 2) (r0 ^ 2)) ^ 2
        = (gam / (2 * Real.pi)) ^ 2
          / max ((x.1 - xv.1) ^ 2 + (x.2 - xv.2) ^ 2) (r0 ^ 2) := by
      field_simp
      ring
    have h3 : (gam / (2 * Real.pi)) ^ 2
          / max ((x.1 - xv.1) ^ 2 + (x.2 - xv.2) ^ 2) (r0 ^ 2)
        ≤ (gam / (2 * Real.pi)) ^ 2 / r0 ^ 2 := by
      gcongr
    exact h1.trans ((le_of_eq h2).trans h3)
  calc vnorm (inducedVelocitySingle r0 x xv gam)
      = Real.sqrt
          ((gam / (2 * Real.pi) * (x.2 - xv.2)
              / max ((x.1 - xv.1) ^ 2 + (x.2 - xv.2) ^ 2) (r0 ^ 2)) ^ 2
            + (gam / (2 * Real.pi) * (-(x.1 - xv.1))
              / max ((x.1 - xv.1) ^ 2 + (x.2 - xv.2) ^ 2) (r0 ^ 2)) ^ 2) := rfl
    _ ≤ Real.sqrt ((gam / (2 * Real.pi)) ^ 2 / r0 ^ 2) := by
        rw [hexp]
        exact Real.sqrt_le_sqrt hchain
    _ = |gam| / (2 * Real.pi * r0) := by
        rw [Real.sqrt_div (sq_nonneg _), Real.sqrt_sq_eq_abs, Real.sqrt_sq hr0.le,
          abs_div, abs_of_pos Real.two_pi_pos, div_div]

/-- Witness for C9: core radius 1, vortex of strength 2 at the origin,
sampled at `(1, 0)`. -/
theorem kernel_regularized_bound_w :
    0 < max ((((1:ℝ)) - 0) ^ 2 + (((0:ℝ)) - 0) ^ 2) ((1:ℝ) ^ 2)
    ∧ vnorm (inducedVelocitySingle 1 ((1:ℝ), (0:ℝ)) ((0:ℝ), (0:ℝ)) 2)
        ≤ |(2:ℝ)| / (2 * Real.pi * 1) :=
  kernel_regularized_bound 1 one_pos ((1:ℝ), (0:ℝ)) ((0:ℝ), (0:ℝ)) 2

/-- Claim C2: whenever `update_strengths_unsteady` completes — i.e.
`np.linalg.solve` returns `g` with `A·g = rhs` for the augmented system —
the sum of the `N` panel strengths plus the newly shed vortex's strength
equals the target circulation `circ`, because the last row of `A` is all
ones and the last right-hand-side entry is `circ`. -/
theorem unsteady_kelvin (n : ℕ) (influence : Matrix (Fin n) (Fin n) ℝ)
    (shedNormal : Fin n → ℝ) (rhs0 : Fin n → ℝ) (circ : ℝ)
    (st : PanelState n) (g : Fin (n + 1) → ℝ) (xShed : Vec2)
    (hsolve : (augmentedMatrix n influence shedNormal).mulVec g
        = augmentedRhs n rhs0 circ) :
    (∀ j, augmentedMatrix n influence shedNormal (Fin.last n) j = 1)
    ∧ augmentedRhs n rhs0 circ (Fin.last n) = circ
    ∧ (solveUnsteady n st g xShed).shed = some (xShed, g (Fin.last n))
    ∧ (∑ i : Fin n, (solveUnsteady n st g xShed).gam i) + g (Fin.last n) = circ := by
  have hrow : ∀ j, augmentedMatrix n influence shedNormal (Fin.last n) j = 1 := by
    intro j
    simp [augmentedMatrix, Fin.val_last]
  have hrhs : augmentedRhs n rhs0 circ (Fin.last n) = circ := by
    simp [augmentedRhs, Fin.val_last]
  refine ⟨hrow, hrhs, rfl, ?_⟩
  have hlast := congrFun hsolve (Fin.last n)
  simp only [Matrix.mulVec, Matrix.dotProduct] at hlast
  simp only [hrow, one_mul, hrhs] at hlast
  calc (∑ i : Fin n, (solveUnsteady n st g xShed).gam i) + g (Fin.last n)
      = ∑ j : Fin (n + 1), g j := (Fin.sum_univ_castSucc g).symm
    _ = circ := hlast

/-- Witness for C2 with one panel: influence `[[2]]`, shed influence `3`,
right-hand side `5`, target circulation `2`, solved by `g = (1, 1)`. -/
theorem unsteady_kelvin_w :
    (∑ i : Fin 1, (solveUnsteady 1 (initPanelState 1) ![(1:ℝ), 1] ((0:ℝ), (0:ℝ))).gam i)
      + (![(1:ℝ), 1]) (Fin.last 1) = 2 := by
  have hs : (augmentedMatrix 1 (Matrix.of fun _ _ => (2:ℝ)) (fun _ => 3)).mulVec
      ![(1:ℝ), 1] = augmentedRhs 1 (fun _ => 5) 2 := by
    funext i
    fin_cases i <;>
      simp [Matrix.mulVec, Matrix.dotProduct, Fin.sum_univ_succ, augmentedMatrix,
        augmentedRhs] <;>
      norm_num
  exact (unsteady_kelvin 1 (Matrix.of fun _ _ => (2:ℝ)) (fun _ => 3) (fun _ => 5) 2
      (initPanelState 1) ![(1:ℝ), 1] ((0:ℝ), (0:ℝ)) hs).2.2.2

/-- Claim C5: with at least two boundary points, a first/last point distance
under the fixed threshold 0.005 marks a closed body — trailing edge at the
midpoint of the first and last boundary points, wake direction the
normalized bisector `normalize((dq_last - dq_first)/2)`; otherwise the body
is open/thin — trailing edge at the first boundary point, wake direction
the negative of the first panel's normalized tangent. -/
theorem trailing_edge_descriptor (q : List Vec2) (h2 : 2 ≤ q.length) :
    trailingEdgeDescriptor q
      = some (if vnorm (q.headI.1 - (q.getLastD (0, 0)).1,
                        q.headI.2 - (q.getLastD (0, 0)).2) < 0.005 then
          (((q.headI.1 + (q.getLastD (0, 0)).1) / 2,
            (q.headI.2 + (q.getLastD (0, 0)).2) / 2),
           normalize ((((panelDiff q).getLastD (0, 0)).1 - ((panelDiff q).headI).1) / 2,
                      (((panelDiff q).getLastD (0, 0)).2 - ((panelDiff q).headI).2) / 2))
        else
          (q.headI, (-(normalize ((panelDiff q).headI)).1,
                     -(normalize ((panelDiff q).headI)).2))) := by
  simp only [trailingEdgeDescriptor]
  rw [if_pos h2]
  by_cases hc : vnorm (q.headI.1 - (q.getLastD (0, 0)).1,
      q.headI.2 - (q.getLastD (0, 0)).2) < 0.005
  · rw [if_pos hc, if_pos hc]
    refine congrArg some (Prod.ext ?_ ?_)
    · exact Prod.ext (by ring) (by ring)
    · exact congrArg normalize (Prod.ext (by ring) (by ring))
  · rw [if_neg hc, if_neg hc]
    refine congrArg some (Prod.ext rfl (Prod.ext ?_ ?_)) <;>
      simp only [normalize] <;> ring

/-- Witness for C5: a single flat panel from `(0,0)` to `(1,0)` is an open
body; the trailing edge is `(0,0)` and the wake direction `(-1,0)`. -/
theorem trailing_edge_descriptor_w :
    trailingEdgeDescriptor [((0:ℝ), (0:ℝ)), ((1:ℝ), (0:ℝ))]
      = some (((0:ℝ), (0:ℝ)), ((-1:ℝ), (0:ℝ))) := by
  have h := trailing_edge_descriptor [((0:ℝ), (0:ℝ)), ((1:ℝ), (0:ℝ))] (by simp)
  rw [h]
  have hC : vnorm (([((0:ℝ), (0:ℝ)), ((1:ℝ), (0:ℝ))].headI).1
        - ([((0:ℝ), (0:ℝ)), ((1:ℝ), (0:ℝ))].getLastD (0, 0)).1,
      ([((0:ℝ), (0:ℝ)), ((1:ℝ), (0:ℝ))].headI).2
        - ([((0:ℝ), (0:ℝ)), ((1:ℝ), (0:ℝ))].getLastD (0, 0)).2) = 1 := by
    show Real.sqrt (((0:ℝ) - 1) ^ 2 + ((0:ℝ) - 0) ^ 2) = 1
    norm_num
  rw [if_neg (by rw [hC]; norm_num)]
  have hdh : (panelDiff [((0:ℝ), (0:ℝ)), ((1:ℝ), (0:ℝ))]).headI = ((1:ℝ), (0:ℝ)) := by
    simp [panelDiff]
  rw [hdh]
  have hv : vnorm ((1:ℝ), (0:ℝ)) = 1 := by
    show Real.sqrt ((1:ℝ) ^ 2 + (0:ℝ) ^ 2) = 1
    norm_num
  simp [normalize, hv]

end Pysces
